import Mathlib

/-!
Verification development for the my-coding-agent repository (TypeScript).

The source consists of src/index.ts (tool registry with interactive
confirmation gates, the tool dispatcher executeTool, the streaming chat
loop, and a direct "create <name>.txt" CLI bypass) together with
src/tools/filesystem.ts and src/tools/shell.ts (the executors readFile,
writeFile, listFiles, executeCommand).

The embedding below translates that code shallowly:
- JavaScript strings are Lean String values; the handful of JS string
  primitives the source uses (slice, toLowerCase, startsWith, includes,
  replace-first-occurrence, trim) are modelled over String.data.
- The OS is an explicit state: a file-system value (association list of
  resolved paths to contents, plus a set of paths whose writes fail) and a
  shell oracle, threaded through an Env record.  An execLog field records
  every command the shell executor actually runs, so "the executor was
  never invoked" is observable.
- Callback/promise code becomes direct state passing; a JS exception
  becomes the error branch of Except, and a try/catch becomes a match on
  that Except.
-/

set_option maxRecDepth 4096

namespace MyCodingAgent

/-! ## JavaScript string primitives (modelled over String.data) -/

/-- Models the JS expression s.toLowerCase(), restricted to ASCII case
mapping (the answers and commands compared in the source are ASCII). -/
def jsToLowerCase (s : String) : String := ⟨s.data.map Char.toLower⟩

/-- Models the JS expression s.slice(0, n) for n ≥ 0.  JS indexes UTF-16
units; the model indexes characters, which agrees on the ASCII and BMP
content the program handles. -/
def sliceTo (s : String) (n : Nat) : String := ⟨s.data.take n⟩

/-- Models the JS expression s.startsWith(pat). -/
def jsStartsWith (s pat : String) : Bool := pat.data.isPrefixOf s.data

/-- Helper for jsIncludes: substring test on character lists. -/
def listContainsSub (s pat : List Char) : Bool :=
  if pat.isPrefixOf s then true
  else
    match s with
    | [] => false
    | _ :: rest => listContainsSub rest pat

/-- Models the JS expression s.includes(pat). -/
def jsIncludes (s pat : String) : Bool := listContainsSub s.data pat.data

/-- Helper for jsReplaceFirst: replace the first occurrence of pat in s by
rep, on character lists.  When pat does not occur, s is returned
unchanged, as in JS String.prototype.replace with a string pattern. -/
def listReplaceFirst (s pat rep : List Char) : List Char :=
  if pat.isPrefixOf s then rep ++ s.drop pat.length
  else
    match s with
    | [] => []
    | c :: rest => c :: listReplaceFirst rest pat rep

/-- Models the JS expression s.replace(pat, rep) with a string pattern,
which replaces only the first occurrence. -/
def jsReplaceFirst (s pat rep : String) : String :=
  ⟨listReplaceFirst s.data pat.data rep.data⟩

/-- Whitespace recognised by the trim model (space, tab, LF, CR — the
ASCII subset of what JS String.prototype.trim strips). -/
def jsIsSpace (c : Char) : Bool :=
  c == ' ' || c == '\t' || c == '\n' || c == '\r'

/-- Models the JS expression s.trim(). -/
def jsTrim (s : String) : String :=
  ⟨((s.data.dropWhile jsIsSpace).reverse.dropWhile jsIsSpace).reverse⟩

/-! ## Tool arguments and the JSON.parse model

The source passes tool arguments as JS objects whose fields are strings
(path, content, directory, command).  An argument bundle is modelled as an
association list from field names to string values; a missing field
models the JS value undefined. -/

/-- An argument bundle: JS object with string fields; absence of a key
models undefined. -/
abbrev Args := List (String × String)

/-- Models reading args.key: some value when present, none (undefined)
when absent. -/
def getField (args : Args) (key : String) : Option String :=
  (args.find? (fun e => e.1 == key)).map (fun e => e.2)

/-- Skip JSON whitespace. -/
def skipWs : List Char → List Char
  | [] => []
  | c :: rest =>
    if c == ' ' || c == '\t' || c == '\n' || c == '\r' then skipWs rest
    else c :: rest

/-- Helper for parseStringLit: consume characters up to the closing
quote. -/
def parseStringGo : List Char → List Char → Option (String × List Char)
  | [], _ => none
  | c :: rest, acc =>
    if c == '"' then some (⟨acc.reverse⟩, rest)
    else parseStringGo rest (c :: acc)

/-- Parse a JSON string literal (escape sequences are not interpreted;
the program only round-trips plain text). -/
def parseStringLit : List Char → Option (String × List Char)
  | [] => none
  | c :: rest => if c == '"' then parseStringGo rest [] else none

/-- Parse the members of a JSON object after the opening brace, fuelled
by the length of the remaining input. -/
def parsePairs : Nat → List Char → Args → Option (Args × List Char)
  | 0, _, _ => none
  | fuel + 1, s, acc =>
    match parseStringLit (skipWs s) with
    | none => none
    | some (k, rest) =>
      match skipWs rest with
      | ':' :: rest2 =>
        match parseStringLit (skipWs rest2) with
        | none => none
        | some (v, rest3) =>
          match skipWs rest3 with
          | ',' :: rest4 => parsePairs fuel rest4 ((k, v) :: acc)
          | '}' :: rest5 => some (((k, v) :: acc).reverse, rest5)
          | _ => none
      | _ => none

/-- Models JSON.parse at the shape the program consumes: a flat object
whose fields are strings.  Returns the error branch (a thrown
SyntaxError) on any other input, as JSON.parse does. -/
def jsonParse (s : String) : Except String Args :=
  match skipWs s.data with
  | '{' :: rest =>
    match skipWs rest with
    | '}' :: rest2 =>
      if skipWs rest2 == [] then .ok []
      else .error "Unexpected non-whitespace character after JSON"
    | rest2 =>
      match parsePairs (rest2.length + 1) rest2 [] with
      | some (args, rest3) =>
        if skipWs rest3 == [] then .ok args
        else .error "Unexpected non-whitespace character after JSON"
      | none => .error "Unexpected token in JSON"
  | _ => .error "Unexpected token in JSON at position 0"

/-- Boolean success test for an Except value. -/
def exceptOk (e : Except String Args) : Bool :=
  match e with
  | .ok _ => true
  | .error _ => false

/-! ## File-system and shell model -/

/-- The file-system state: stored files (resolved path to content),
directory listings, and the set of resolved paths whose writes fail with
an I/O error (modelling permissions and similar OS failures). -/
structure FS where
  files : List (String × String)
  dirs : List (String × List String)
  failWrites : List String
deriving Repr, DecidableEq

/-- Models path.resolve(p) with a fixed working directory /workspace:
absolute paths are kept, relative ones are prefixed.  Both readFile and
writeFile resolve through this same function, as in the source. -/
def resolvePath (p : String) : String :=
  if jsStartsWith p "/" then p else "/workspace/" ++ p

/-- Models fs.readFile(resolved, utf-8): the content, or a thrown ENOENT
error for a missing file. -/
def fsReadFile (fs : FS) (p : String) : Except String String :=
  match fs.files.find? (fun e => e.1 == resolvePath p) with
  | some e => .ok e.2
  | none => .error ("ENOENT: no such file or directory, open " ++ resolvePath p)

/-- Models fs.ensureDir + fs.writeFile(resolved, content): stores the
content, or throws an I/O error on the paths marked as failing. -/
def fsWriteFile (fs : FS) (p content : String) : Except String FS :=
  if resolvePath p ∈ fs.failWrites then
    .error ("EACCES: permission denied, open " ++ resolvePath p)
  else
    .ok { fs with files := (resolvePath p, content) :: fs.files }

/-- Models fs.readdir(resolved): the entry names, or a thrown ENOENT
error for a missing directory. -/
def fsReadDir (fs : FS) (d : String) : Except String (List String) :=
  match fs.dirs.find? (fun e => e.1 == resolvePath d) with
  | some e => .ok e.2
  | none => .error ("ENOENT: no such file or directory, scandir " ++ resolvePath d)

/-! ## Tool results -/

/-- The payload shapes the executors and gates return in the source:
one constructor per object shape. -/
inductive ToolResult where
  /-- The object with a content field returned by readFile. -/
  | content (s : String)
  /-- The object with an error field returned on any recovered failure. -/
  | error (msg : String)
  /-- The object with success true and a message returned by writeFile. -/
  | success (message : String)
  /-- The object with a files field returned by listFiles. -/
  | files (names : List String)
  /-- The object with an output field returned by executeCommand. -/
  | output (s : String)
  /-- The object with cancelled true and a message returned by a gate on
  decline. -/
  | cancelled (message : String)
deriving Repr, DecidableEq

/-- Message of the TypeError thrown by path.resolve(undefined), raised
when the path field is absent; it is caught inside the executors. -/
def undefinedPathMsg : String :=
  "The path argument must be of type string. Received undefined"

/-- Message of the TypeError thrown when execSync receives undefined;
caught inside the executeCommand executor. -/
def undefinedCommandMsg : String :=
  "The file argument must be of type string. Received undefined"

/-- Message of the TypeError thrown by args.content.slice(0, 100) when
args.content is undefined — this one is raised in the confirmation gate,
outside any try/catch, so it escapes to the dispatcher. -/
def undefinedSliceMsg : String :=
  "Cannot read properties of undefined (reading slice)"

/-! ## Executors (src/tools/filesystem.ts, src/tools/shell.ts)

Each executor wraps its whole body in try/catch and therefore never
raises past its boundary; in the embedding this is reflected by the
executors being total functions into ToolResult. -/

/-- Embeds readFile from src/tools/filesystem.ts lines 9-17. -/
def readFile (fs : FS) (args : Args) : ToolResult :=
  match getField args "path" with
  | none => .error ("Failed to read file: " ++ undefinedPathMsg)
  | some p =>
    match fsReadFile fs p with
    | .ok c => .content c
    | .error m => .error ("Failed to read file: " ++ m)

/-- Embeds writeFile from src/tools/filesystem.ts lines 24-33.  Note the
success message interpolates the unresolved args.path. -/
def writeFile (fs : FS) (args : Args) : ToolResult × FS :=
  match getField args "path" with
  | none => (.error ("Failed to write file: " ++ undefinedPathMsg), fs)
  | some p =>
    match getField args "content" with
    | none => (.error ("Failed to write file: " ++ undefinedPathMsg), fs)
    | some c =>
      match fsWriteFile fs p c with
      | .ok fs2 => (.success ("Successfully wrote to " ++ p), fs2)
      | .error m => (.error ("Failed to write file: " ++ m), fs)

/-- Embeds listFiles from src/tools/filesystem.ts lines 39-46. -/
def listFiles (fs : FS) (args : Args) : ToolResult :=
  match getField args "directory" with
  | none => .error ("Failed to list files: " ++ undefinedPathMsg)
  | some d =>
    match fsReadDir fs d with
    | .ok names => .files names
    | .error m => .error ("Failed to list files: " ++ m)

/-! ## Process environment

Bundles the mutable world the program touches: the file system, the
pending interactive answers (one consumed per confirmation prompt), the
shell outcome oracle, and a log of every command actually handed to the
shell (so non-invocation of the shell executor is observable). -/

/-- The observable OS/terminal environment threaded through the
embedding. -/
structure Env where
  fs : FS
  answers : List String
  shell : String → Except String String
  execLog : List String

/-- Embeds executeCommand from src/tools/shell.ts lines 8-16: execSync
runs the command (recorded in execLog) and either yields its output or
throws; the executor's try/catch turns the throw into an error payload. -/
def executeCommand (env : Env) (args : Args) : ToolResult × Env :=
  match getField args "command" with
  | none => (.error ("Command execution failed: " ++ undefinedCommandMsg), env)
  | some cmd =>
    match env.shell cmd with
    | .ok out => (.output out, { env with execLog := env.execLog ++ [cmd] })
    | .error m =>
      (.error ("Command execution failed: " ++ m),
       { env with execLog := env.execLog ++ [cmd] })

/-! ## Confirmation gates (src/index.ts lines 56-70 and 82-95)

Each gate previews the effect, consumes one interactive answer, and
invokes the underlying executor exactly when the lowercased answer is
"yes" or "y"; otherwise it resolves with a cancelled payload without
touching the executor.  The writeFile gate evaluates
args.content.slice(0, 100) before prompting, which throws a TypeError
when args.content is undefined; that throw is the error branch of the
returned Except and escapes to the dispatcher. -/

/-- The content preview rendered by the writeFile gate (src/index.ts
line 58): the first 100 characters, followed by an ellipsis marker
exactly when the content is longer than 100 characters. -/
def previewContent (content : String) : String :=
  sliceTo content 100 ++ (if content.length > 100 then "..." else "")

/-- Embeds the writeFile confirmation gate (src/index.ts lines 56-70). -/
def writeFileGate (env : Env) (args : Args) : Except String (ToolResult × Env) :=
  match getField args "content" with
  | none => .error undefinedSliceMsg
  | some content =>
    let _preview := previewContent content
    let answer := env.answers.headD ""
    let env1 : Env := { env with answers := env.answers.tail }
    if jsToLowerCase answer == "yes" || jsToLowerCase answer == "y" then
      let p := writeFile env1.fs args
      .ok (p.1, { env1 with fs := p.2 })
    else
      .ok (.cancelled "File write operation cancelled by user", env1)

/-- Embeds the executeCommand confirmation gate (src/index.ts lines
82-95). -/
def executeCommandGate (env : Env) (args : Args) : Except String (ToolResult × Env) :=
  let answer := env.answers.headD ""
  let env1 : Env := { env with answers := env.answers.tail }
  if jsToLowerCase answer == "yes" || jsToLowerCase answer == "y" then
    .ok (executeCommand env1 args)
  else
    .ok (.cancelled "Command execution cancelled by user", env1)

/-! ## Tool registry and dispatcher (src/index.ts lines 45-111) -/

/-- A registry entry: tool name bound to its execute function (the gate
for the modifying tools, the bare executor for the others).  The Except
layer is the possibility of an uncaught JS exception. -/
structure ToolSpecR where
  name : String
  exec : Env → Args → Except String (ToolResult × Env)

/-- Embeds the static tools array (src/index.ts lines 45-97). -/
def toolsRegistry : List ToolSpecR :=
  [ { name := "readFile", exec := fun env args => .ok (readFile env.fs args, env) },
    { name := "writeFile", exec := writeFileGate },
    { name := "listFiles", exec := fun env args => .ok (listFiles env.fs args, env) },
    { name := "executeCommand", exec := executeCommandGate } ]

/-- Embeds executeTool (src/index.ts lines 100-111).  The function is
total into ToolResult × Env: an unknown name and a thrown exception are
both converted to error payloads, so no exception propagates to the
caller. -/
def executeTool (env : Env) (name : String) (args : Args) : ToolResult × Env :=
  match toolsRegistry.find? (fun t => t.name == name) with
  | none => (.error ("Tool " ++ name ++ " not found"), env)
  | some t =>
    match t.exec env args with
    | .ok res => res
    | .error m => (.error ("Failed to execute tool " ++ name ++ ": " ++ m), env)

/-! ## Chat loop (src/index.ts lines 114-208) -/

/-- One turn of the conversation history: a role string as used in the
source ("system", "user", "model", and "function" for a tool result —
the role the specification's data model calls the tool/function-result
turn) and a text body. -/
structure Turn where
  role : String
  text : String
deriving Repr, DecidableEq

/-- A tool call as delivered by the stream: a tool name and a raw
argument string which the loop decodes with JSON.parse. -/
structure ToolCall where
  name : String
  args : String
deriving Repr, DecidableEq

/-- One chunk of the streamed model response: incremental text and an
optional batch of tool calls (none models a chunk whose functionCalls
accessor is absent). -/
structure StreamChunk where
  text : String
  functionCalls : Option (List ToolCall)
deriving Repr, DecidableEq

/-- The accumulated response text of the stream loop (src/index.ts lines
146-151): chunk text is appended when it is truthy (non-empty). -/
def streamText (chunks : List StreamChunk) : String :=
  chunks.foldl (fun acc ch => if ch.text == "" then acc else acc ++ ch.text) ""

/-- One step of the retained-batch update (src/index.ts lines 154-157):
a chunk carrying a non-empty batch replaces the retained batch; any
other chunk leaves it unchanged. -/
def retainStep (acc : List ToolCall) (ch : StreamChunk) : List ToolCall :=
  match ch.functionCalls with
  | some calls => if calls.length > 0 then calls else acc
  | none => acc

/-- The batch retained after consuming the whole stream (the toolCalls
variable of src/index.ts lines 142-158). -/
def retainToolCalls (chunks : List StreamChunk) : List ToolCall :=
  chunks.foldl retainStep []

/-- Modelled from the spec: "only the most recently received non-empty
batch is retained" — the last non-empty batch carried by any chunk, or
the empty batch when there is none.  Stated independently of the loop so
the loop can be proved to refine it. -/
def pickBatch (ch : StreamChunk) : Option (List ToolCall) :=
  match ch.functionCalls with
  | some calls => if calls.length > 0 then some calls else none
  | none => none

/-- Modelled from the spec: the most recently received non-empty
tool-call batch of a stream. -/
def lastNonEmptyBatch (chunks : List StreamChunk) : List ToolCall :=
  (chunks.filterMap pickBatch).getLastD []

/-- Models JSON.stringify on a string value (escape sequences elided;
the payloads the program serializes are plain text). -/
def quoteJson (s : String) : String := "\"" ++ s ++ "\""

/-- Models JSON.stringify(result) for each payload shape, as used when a
tool result is appended to the history (src/index.ts line 179). -/
def serializeResult : ToolResult → String
  | .content c => "\x7b\"content\":" ++ quoteJson c ++ "\x7d"
  | .error m => "\x7b\"error\":" ++ quoteJson m ++ "\x7d"
  | .success m => "\x7b\"success\":true,\"message\":" ++ quoteJson m ++ "\x7d"
  | .files names =>
    "\x7b\"files\":[" ++ String.intercalate "," (names.map quoteJson) ++ "]\x7d"
  | .output o => "\x7b\"output\":" ++ quoteJson o ++ "\x7d"
  | .cancelled m => "\x7b\"cancelled\":true,\"message\":" ++ quoteJson m ++ "\x7d"

/-- Embeds the tool-call dispatch loop (src/index.ts lines 168-181): for
each retained call in order, decode its argument string with JSON.parse,
dispatch through executeTool, and append the serialized result to the
history as a role-"function" turn before the next call.  A JSON.parse
throw escapes the loop (third component some message) and is caught by
the enclosing catch of processUserInput. -/
def dispatchCalls : Env → List Turn → List ToolCall → Env × List Turn × Option String
  | env, hist, [] => (env, hist, none)
  | env, hist, tc :: rest =>
    match jsonParse tc.args with
    | .error m => (env, hist, some m)
    | .ok args =>
      let p := executeTool env tc.name args
      dispatchCalls p.2
        (hist ++ [{ role := "function", text := serializeResult p.1 }]) rest

/-- Modelled from the spec: "each request is passed to the Dispatcher in
sequence and each result is appended as a tool turn before the next
request is dispatched" — the ordered list of tool turns produced by a
batch, used to state that the loop refines sequential ordered
dispatch. -/
def dispatchTrace : Env → List ToolCall → List Turn
  | _, [] => []
  | env, tc :: rest =>
    match jsonParse tc.args with
    | .error _ => []
    | .ok args =>
      let p := executeTool env tc.name args
      { role := "function", text := serializeResult p.1 } :: dispatchTrace p.2 rest

/-- The chat-loop state: the conversation history plus the environment. -/
structure ChatState where
  history : List Turn
  env : Env

/-- Embeds processUserInput (src/index.ts lines 121-189) with the
streamed response supplied as an oracle.  Returns the shouldContinue
flag, the new state, and the number of remote-model requests issued (0
on the exit branch, 1 otherwise).  The enclosing try/catch of the source
is reflected in the dispatch error being swallowed: the function returns
true either way. -/
def processUserInput (st : ChatState) (stream : List StreamChunk)
    (userInput : String) : Bool × ChatState × Nat :=
  if jsToLowerCase userInput == "exit" then (false, st, 0)
  else
    let hist1 := st.history ++ [{ role := "user", text := userInput }]
    let hist2 := hist1 ++ [{ role := "model", text := streamText stream }]
    let calls := retainToolCalls stream
    if calls.length > 0 then
      let p := dispatchCalls st.env hist2 calls
      (true, { history := p.2.1, env := p.1 }, 1)
    else
      (true, { history := hist2, env := st.env }, 1)

/-- Embeds the interactive session loop (askQuestion, src/index.ts lines
198-207): consume inputs one line at a time, stopping when
processUserInput signals termination.  Returns the final history and the
total number of remote-model requests issued. -/
def runSession : ChatState → List (List StreamChunk) → List String → List Turn × Nat
  | st, _, [] => (st.history, 0)
  | st, streams, input :: rest =>
    let p := processUserInput st (streams.headD []) input
    if p.1 then
      let q := runSession p.2.1 streams.tail rest
      (q.1, p.2.2 + q.2)
    else
      (p.2.1.history, p.2.2)

/-! ## CLI entry and the direct file-creation bypass (src/index.ts lines
214-238) -/

/-- What the process does with its initial message: the direct
file-creation bypass, or the interactive chat. -/
inductive StartAction where
  | bypass (filename : String)
  | chat (initialMessage : String)
deriving Repr, DecidableEq

/-- Embeds the top-level dispatch on the initial message (src/index.ts
lines 215-216): the bypass triggers when the message starts with
"create " and contains ".txt" anywhere, and the filename is the message
with its first occurrence of "create " removed, then trimmed. -/
def startAction (initialMessage : String) : StartAction :=
  if jsStartsWith initialMessage "create " && jsIncludes initialMessage ".txt" then
    .bypass (jsTrim (jsReplaceFirst initialMessage "create " ""))
  else
    .chat initialMessage

/-- Embeds the bypass body (src/index.ts lines 220-234): the writeFile
executor is invoked directly with empty content — no confirmation
prompt, no answer consumed.  The then-branch exits with code 0 and runs
whenever the executor resolves; since the executor converts every
failure into an error payload (it never rejects), the embedded exit code
is 0 unconditionally, and the catch-branch exit code 1 is unreachable. -/
def runCreateBypass (fs : FS) (filename : String) : ToolResult × FS × Nat :=
  let p := writeFile fs [("path", filename), ("content", "")]
  (p.1, p.2, 0)

/-! ## Auxiliary predicates and concrete fixtures -/

/-- The history h2 extends h by appending (turns are append-only). -/
def extendsHist (h h2 : List Turn) : Prop := ∃ t, h2 = h ++ t

/-- Projects the tool result out of a gate outcome, dropping the
environment (none when the gate threw). -/
def gateResult (g : Except String (ToolResult × Env)) : Option ToolResult :=
  match g with
  | .ok p => some p.1
  | .error _ => none

/-- A shell oracle for concrete runs: every command succeeds with a
fixed output. -/
def shellStub : String → Except String String := fun _ => .ok "ok-output"

/-- An empty file system with no failing paths. -/
def fsEmpty : FS := { files := [], dirs := [], failWrites := [] }

/-- A file system on which writing /workspace/locked.txt fails. -/
def fsLocked : FS := { files := [], dirs := [], failWrites := ["/workspace/locked.txt"] }

/-- An environment whose next interactive answer declines. -/
def envDecline : Env := { fs := fsEmpty, answers := ["no"], shell := shellStub, execLog := [] }

/-- An environment whose next interactive answer is the affirmative
"YES" (upper case, accepted case-insensitively). -/
def envAccept : Env := { fs := fsEmpty, answers := ["YES"], shell := shellStub, execLog := [] }

/-- An environment with no pending answers. -/
def envPlain : Env := { fs := fsEmpty, answers := [], shell := shellStub, execLog := [] }

/-- Two well-formed tool calls as a model batch. -/
def demoCalls : List ToolCall :=
  [ { name := "readFile", args := "\x7b\"path\": \"a.txt\"\x7d" },
    { name := "listFiles", args := "\x7b\"directory\": \".\"\x7d" } ]

/-- A simulated stream of two chunks, the second carrying the two-call
batch. -/
def demoChunks : List StreamChunk :=
  [ { text := "Let me look.", functionCalls := none },
    { text := "", functionCalls := some demoCalls } ]

/-- A 101-character content string (longer than the preview limit). -/
def longContent : String :=
  "0123456789012345678901234567890123456789012345678901234567890123456789012345678901234567890123456789X"

/-- A content string not exceeding the preview limit. -/
def shortContent : String := "short content"

/-- A fresh chat state over the plain environment. -/
def stDemo : ChatState := { history := [], env := envPlain }

/-! ## Theorems -/

/-- Auxiliary: the stream loop's fold computes the last non-empty batch,
relative to an arbitrary starting accumulator. -/
theorem foldl_retainStep_eq_getLastD (chunks : List StreamChunk) :
    ∀ acc, chunks.foldl retainStep acc = (chunks.filterMap pickBatch).getLastD acc := by
  induction chunks with
  | nil => intro acc; rfl
  | cons ch rest ih =>
    intro acc
    rw [List.foldl_cons, List.filterMap_cons]
    cases hfc : ch.functionCalls with
    | none =>
      simp only [retainStep, pickBatch, hfc]
      exact ih acc
    | some calls =>
      by_cases hl : calls.length > 0
      · simp only [retainStep, pickBatch, hfc, hl, if_true, reduceIte]
        rw [List.getLastD_cons]
        exact ih calls
      · simp only [retainStep, pickBatch, hfc, hl, if_false, reduceIte]
        exact ih acc

/-- Claim C4: while consuming the stream, the loop retains exactly the
most recently received non-empty tool-call batch — a later empty (or
absent) batch does not clear a previously retained one, and earlier
non-empty batches are discarded rather than accumulated.  Formally, the
retained variable equals the last non-empty batch carried by any chunk,
or the empty batch when no chunk carried one. -/
theorem retainToolCalls_eq_last_nonempty (chunks : List StreamChunk) :
    retainToolCalls chunks = lastNonEmptyBatch chunks :=
  foldl_retainStep_eq_getLastD chunks []

/-- Claim C6: in the writeFile confirmation preview, content longer than
100 characters is shown as its first 100 characters followed by the
ellipsis marker, and content of at most 100 characters is shown
unmodified with no marker appended. -/
theorem previewContent_truncation (c : String) :
    (c.length ≤ 100 → previewContent c = c) ∧
    (c.length > 100 → previewContent c = sliceTo c 100 ++ "...") := by
  constructor
  · intro h
    have hnot : ¬ c.length > 100 := by omega
    have htake : c.data.take 100 = c.data := List.take_of_length_le h
    simp [previewContent, hnot, sliceTo, htake]
  · intro h
    simp [previewContent, h]

/-- Witness for C6 at a 101-character and a 13-character content. -/
theorem previewContent_truncation_witness :
    longContent.length > 100 ∧
    previewContent longContent = sliceTo longContent 100 ++ "..." ∧
    shortContent.length ≤ 100 ∧
    previewContent shortContent = shortContent :=
  ⟨by decide, (previewContent_truncation longContent).2 (by decide), by decide,
    (previewContent_truncation shortContent).1 (by decide)⟩

/-- Claim C7: each executor returns either its success payload or an
error payload carrying the underlying failure message; the executors are
total functions (the source wraps each body in try/catch, so no
exception passes the boundary). -/
theorem executors_total_payloads :
    (∀ fs args, (∃ c, readFile fs args = .content c) ∨
      (∃ m, readFile fs args = .error ("Failed to read file: " ++ m))) ∧
    (∀ fs args, (∃ m, (writeFile fs args).1 = .success m) ∨
      (∃ m, (writeFile fs args).1 = .error ("Failed to write file: " ++ m))) ∧
    (∀ fs args, (∃ ns, listFiles fs args = .files ns) ∨
      (∃ m, listFiles fs args = .error ("Failed to list files: " ++ m))) ∧
    (∀ env args, (∃ o, (executeCommand env args).1 = .output o) ∨
      (∃ m, (executeCommand env args).1 =
        .error ("Command execution failed: " ++ m))) := by
  refine ⟨fun fs args => ?_, fun fs args => ?_, fun fs args => ?_, fun env args => ?_⟩
  · cases hg : getField args "path" with
    | none => exact Or.inr ⟨undefinedPathMsg, by simp [readFile, hg]⟩
    | some p =>
      cases hr : fsReadFile fs p with
      | ok c => exact Or.inl ⟨c, by simp [readFile, hg, hr]⟩
      | error m => exact Or.inr ⟨m, by simp [readFile, hg, hr]⟩
  · cases hg : getField args "path" with
    | none => exact Or.inr ⟨undefinedPathMsg, by simp [writeFile, hg]⟩
    | some p =>
      cases hg2 : getField args "content" with
      | none => exact Or.inr ⟨undefinedPathMsg, by simp [writeFile, hg, hg2]⟩
      | some c =>
        cases hw : fsWriteFile fs p c with
        | ok fs2 =>
          exact Or.inl ⟨"Successfully wrote to " ++ p, by simp [writeFile, hg, hg2, hw]⟩
        | error m => exact Or.inr ⟨m, by simp [writeFile, hg, hg2, hw]⟩
  · cases hg : getField args "directory" with
    | none => exact Or.inr ⟨undefinedPathMsg, by simp [listFiles, hg]⟩
    | some d =>
      cases hr : fsReadDir fs d with
      | ok ns => exact Or.inl ⟨ns, by simp [listFiles, hg, hr]⟩
      | error m => exact Or.inr ⟨m, by simp [listFiles, hg, hr]⟩
  · cases hg : getField args "command" with
    | none => exact Or.inr ⟨undefinedCommandMsg, by simp [executeCommand, hg]⟩
    | some cmd =>
      cases hs : env.shell cmd with
      | ok o => exact Or.inl ⟨o, by simp [executeCommand, hg, hs]⟩
      | error m => exact Or.inr ⟨m, by simp [executeCommand, hg, hs]⟩

/-- Claim C8: a successful writeFile followed by readFile on the same
path returns exactly the content written. -/
theorem writeFile_readFile_roundtrip (fs : FS) (p c m : String)
    (h : (writeFile fs [("path", p), ("content", c)]).1 = .success m) :
    readFile (writeFile fs [("path", p), ("content", c)]).2 [("path", p)] =
      .content c := by
  have hp : getField [("path", p), ("content", c)] "path" = some p := by
    simp [getField, List.find?]
  have hc : getField [("path", p), ("content", c)] "content" = some c := by
    simp [getField, List.find?]
  have hp2 : getField [("path", p)] "path" = some p := by
    simp [getField, List.find?]
  by_cases hw : resolvePath p ∈ fs.failWrites
  · simp [writeFile, hp, hc, fsWriteFile, hw] at h
  · have hfs : (writeFile fs [("path", p), ("content", c)]).2 =
        { fs with files := (resolvePath p, c) :: fs.files } := by
      simp [writeFile, hp, hc, fsWriteFile, hw]
    rw [hfs]
    simp [readFile, hp2, fsReadFile, List.find?]

/-- Witness for C8: writing hello to a.txt on the empty file system and
reading it back. -/
theorem writeFile_readFile_roundtrip_witness :
    (writeFile fsEmpty [("path", "a.txt"), ("content", "hello")]).1 =
      .success "Successfully wrote to a.txt" ∧
    readFile (writeFile fsEmpty [("path", "a.txt"), ("content", "hello")]).2
      [("path", "a.txt")] = .content "hello" :=
  ⟨by decide,
    writeFile_readFile_roundtrip fsEmpty "a.txt" "hello" "Successfully wrote to a.txt"
      (by decide)⟩

/-- Claim C2: the dispatcher resolves an unknown tool name to the
"Tool <name> not found" error payload, converts any exception thrown by
the resolved execute function into the
"Failed to execute tool <name>: <message>" error payload, and passes a
normally-resolved result through verbatim; being a total function into
ToolResult × Env, it never propagates an exception to its caller. -/
theorem executeTool_spec (env : Env) (name : String) (args : Args) :
    (toolsRegistry.find? (fun ts => ts.name == name) = none →
      executeTool env name args = (.error ("Tool " ++ name ++ " not found"), env)) ∧
    (∀ t, toolsRegistry.find? (fun ts => ts.name == name) = some t →
      (∀ m, t.exec env args = .error m →
        executeTool env name args =
          (.error ("Failed to execute tool " ++ name ++ ": " ++ m), env)) ∧
      (∀ r, t.exec env args = .ok r → executeTool env name args = r)) := by
  refine ⟨fun h => by simp [executeTool, h], fun t ht => ⟨fun m hm => ?_, fun r hr => ?_⟩⟩
  · simp [executeTool, ht, hm]
  · simp [executeTool, ht, hr]

/-- Witness for C2: an unknown tool name, and a throwing execution — the
writeFile gate raises a TypeError when args.content is absent (an
argument-shape failure), which the dispatcher converts. -/
theorem executeTool_spec_witness :
    toolsRegistry.find? (fun ts => ts.name == "nope") = none ∧
    executeTool envPlain "nope" [] = (.error "Tool nope not found", envPlain) ∧
    toolsRegistry.find? (fun ts => ts.name == "writeFile") =
      some { name := "writeFile", exec := writeFileGate } ∧
    writeFileGate envPlain [("path", "a")] = .error undefinedSliceMsg ∧
    executeTool envPlain "writeFile" [("path", "a")] =
      (.error ("Failed to execute tool writeFile: " ++ undefinedSliceMsg), envPlain) :=
  ⟨rfl, (executeTool_spec envPlain "nope" []).1 rfl, rfl, rfl,
    ((executeTool_spec envPlain "writeFile" [("path", "a")]).2
      { name := "writeFile", exec := writeFileGate } rfl).1 undefinedSliceMsg rfl⟩

/-- Counterexample to C1 as stated: on decline, the executeCommand gate
resolves with the message "Command execution cancelled by user", which
is not of the claimed form "<operation> operation cancelled by user" —
any instance of that form ends in " operation cancelled by user" and the
actual message does not. -/
theorem commandGate_cancel_message_counterexample :
    gateResult (executeCommandGate envDecline [("command", "ls")]) =
      some (.cancelled "Command execution cancelled by user") ∧
    List.isSuffixOf " operation cancelled by user".data
      "Command execution cancelled by user".data = false :=
  ⟨rfl, by decide⟩

/-- Auxiliary: every string of the form claimed by C1 for the cancelled
message has " operation cancelled by user" as a suffix, so the
counterexample's suffix test refutes the whole form. -/
theorem claimed_cancel_form_has_suffix (op : String) :
    List.isSuffixOf " operation cancelled by user".data
      (op ++ " operation cancelled by user").data = true := by
  rw [List.isSuffixOf_iff_suffix]
  rw [String.data_append]
  exact List.suffix_append op.data _

/-- Claim C1 (amended): for both gated tools the underlying executor is
invoked if and only if the lowercased answer consumed for that
invocation equals "yes" or "y"; on any other answer the gate resolves
with a cancelled payload — message "File write operation cancelled by
user" for writeFile and "Command execution cancelled by user" for
executeCommand — and the executor is never invoked: the returned
environment differs from the input only in the consumed answer (same
file system, same command log). -/
theorem confirmation_gate_spec (env : Env) (args : Args) (content : String)
    (hc : getField args "content" = some content) :
    ((jsToLowerCase (env.answers.headD "") = "yes" ∨
        jsToLowerCase (env.answers.headD "") = "y") →
      writeFileGate env args =
        .ok ((writeFile env.fs args).1,
          { env with answers := env.answers.tail, fs := (writeFile env.fs args).2 }) ∧
      executeCommandGate env args =
        .ok (executeCommand { env with answers := env.answers.tail } args)) ∧
    (jsToLowerCase (env.answers.headD "") ≠ "yes" →
      jsToLowerCase (env.answers.headD "") ≠ "y" →
      writeFileGate env args =
        .ok (.cancelled "File write operation cancelled by user",
          { env with answers := env.answers.tail }) ∧
      executeCommandGate env args =
        .ok (.cancelled "Command execution cancelled by user",
          { env with answers := env.answers.tail })) := by
  constructor
  · intro h
    have hb : (jsToLowerCase (env.answers.headD "") == "yes" ||
        jsToLowerCase (env.answers.headD "") == "y") = true := by
      rcases h with h | h
      · rw [beq_iff_eq.mpr h]
        rfl
      · rw [beq_iff_eq.mpr h, Bool.or_true]
    refine ⟨?_, ?_⟩
    · simp only [writeFileGate, hc, hb, reduceIte]
    · simp only [executeCommandGate, hb, reduceIte]
  · intro h1 h2
    have hb : (jsToLowerCase (env.answers.headD "") == "yes" ||
        jsToLowerCase (env.answers.headD "") == "y") = false := by
      rw [beq_eq_false_iff_ne.mpr h1, beq_eq_false_iff_ne.mpr h2]
      rfl
    refine ⟨?_, ?_⟩
    · simp only [writeFileGate, hc, hb]
      rfl
    · simp only [executeCommandGate, hb]
      rfl

/-- Witness for C1 at an accepting answer ("YES", accepted
case-insensitively) and a declining one ("no"). -/
theorem confirmation_gate_spec_witness :
    getField [("path", "a.txt"), ("content", "hi")] "content" = some "hi" ∧
    (jsToLowerCase (envAccept.answers.headD "") = "yes" ∨
      jsToLowerCase (envAccept.answers.headD "") = "y") ∧
    (writeFileGate envAccept [("path", "a.txt"), ("content", "hi")] =
      .ok ((writeFile envAccept.fs [("path", "a.txt"), ("content", "hi")]).1,
        { envAccept with
            answers := envAccept.answers.tail
            fs := (writeFile envAccept.fs [("path", "a.txt"), ("content", "hi")]).2 }) ∧
     executeCommandGate envAccept [("path", "a.txt"), ("content", "hi")] =
      .ok (executeCommand { envAccept with answers := envAccept.answers.tail }
        [("path", "a.txt"), ("content", "hi")])) ∧
    jsToLowerCase (envDecline.answers.headD "") ≠ "yes" ∧
    jsToLowerCase (envDecline.answers.headD "") ≠ "y" ∧
    (writeFileGate envDecline [("path", "a.txt"), ("content", "hi")] =
      .ok (.cancelled "File write operation cancelled by user",
        { envDecline with answers := envDecline.answers.tail }) ∧
     executeCommandGate envDecline [("path", "a.txt"), ("content", "hi")] =
      .ok (.cancelled "Command execution cancelled by user",
        { envDecline with answers := envDecline.answers.tail })) :=
  ⟨rfl, by decide,
    (confirmation_gate_spec envAccept [("path", "a.txt"), ("content", "hi")] "hi" rfl).1
      (by decide),
    by decide, by decide,
    (confirmation_gate_spec envDecline [("path", "a.txt"), ("content", "hi")] "hi" rfl).2
      (by decide) (by decide)⟩

/-- Counterexample to C3 as stated: on the file system where writing
locked.txt fails, the bypass triggers, the write fails with an error
payload — and the process still exits with code 0, not 1: the executor
converts the failure into a resolved error payload, so the catch branch
carrying exit code 1 never runs. -/
theorem createBypass_exit_code_counterexample :
    startAction "create locked.txt" = .bypass "locked.txt" ∧
    (runCreateBypass fsLocked "locked.txt").1 =
      .error "Failed to write file: EACCES: permission denied, open /workspace/locked.txt" ∧
    (runCreateBypass fsLocked "locked.txt").2.2 = 0 := by
  refine ⟨by decide, by decide, rfl⟩

/-- Claim C3 (amended): an initial message starting with "create " and
containing ".txt" bypasses the interactive loop; the write-file executor
is invoked directly with empty content and no confirmation prompt (the
bypass consumes no interactive answer), and the process then terminates
with exit code 0 whenever the executor resolves — on success, and also
when the write fails with an error payload; exit code 1 is reserved for
a rejected promise, which the executor's internal error handling
prevents.  On success the target file is created with empty content. -/
theorem createBypass_spec (msg : String) (fs : FS) (filename : String)
    (h1 : jsStartsWith msg "create " = true) (h2 : jsIncludes msg ".txt" = true) :
    startAction msg = .bypass (jsTrim (jsReplaceFirst msg "create " "")) ∧
    (runCreateBypass fs filename).2.2 = 0 ∧
    (resolvePath filename ∉ fs.failWrites →
      (runCreateBypass fs filename).1 = .success ("Successfully wrote to " ++ filename) ∧
      (runCreateBypass fs filename).2.1.files.find?
        (fun e => e.1 == resolvePath filename) = some (resolvePath filename, "")) := by
  have hp : getField [("path", filename), ("content", "")] "path" = some filename := by
    simp [getField, List.find?]
  have hc : getField [("path", filename), ("content", "")] "content" = some "" := by
    simp [getField, List.find?]
  refine ⟨by simp [startAction, h1, h2], rfl, fun hw => ?_⟩
  constructor
  · simp [runCreateBypass, writeFile, hp, hc, fsWriteFile, hw]
  · simp [runCreateBypass, writeFile, hp, hc, fsWriteFile, hw, List.find?]

/-- Witness for C3: the bypass message "create notes.txt" on the empty
file system creates an empty notes.txt and exits with code 0. -/
theorem createBypass_spec_witness :
    jsStartsWith "create notes.txt" "create " = true ∧
    jsIncludes "create notes.txt" ".txt" = true ∧
    resolvePath "notes.txt" ∉ fsEmpty.failWrites ∧
    startAction "create notes.txt" = .bypass "notes.txt" ∧
    (runCreateBypass fsEmpty "notes.txt").2.2 = 0 ∧
    (runCreateBypass fsEmpty "notes.txt").1 = .success "Successfully wrote to notes.txt" ∧
    (runCreateBypass fsEmpty "notes.txt").2.1.files.find?
      (fun e => e.1 == resolvePath "notes.txt") = some (resolvePath "notes.txt", "") := by
  have h := createBypass_spec "create notes.txt" fsEmpty "notes.txt" (by decide) (by decide)
  exact ⟨by decide, by decide, by decide, h.1.trans (by decide), h.2.1,
    (h.2.2 (by decide)).1, (h.2.2 (by decide)).2⟩

/-- Auxiliary: replacing the first occurrence of a pattern that is a
prefix of the string replaces exactly that leading occurrence. -/
theorem listReplaceFirst_leading (s pat rep : List Char)
    (h : pat.isPrefixOf s = true) :
    listReplaceFirst s pat rep = rep ++ s.drop pat.length := by
  cases s with
  | nil => simp [listReplaceFirst, h]
  | cons c rest => simp [listReplaceFirst, h]

/-- Claim C10: the direct file-creation bypass triggers for every
initial message that starts with "create " and contains ".txt" anywhere,
and the path written is the whole initial message with its first
occurrence of "create " (here: its 7-character prefix) removed and then
trimmed. -/
theorem createBypass_trigger_and_filename (msg : String)
    (h1 : jsStartsWith msg "create " = true) (h2 : jsIncludes msg ".txt" = true) :
    startAction msg = .bypass (jsTrim ⟨msg.data.drop 7⟩) := by
  have hp : ("create ".data).isPrefixOf msg.data = true := h1
  have hr : jsReplaceFirst msg "create " "" = ⟨msg.data.drop 7⟩ := by
    unfold jsReplaceFirst
    rw [listReplaceFirst_leading _ _ _ hp]
    rfl
  simp [startAction, h1, h2, hr]

/-- Witness for C10 at the claim's own example: "create a.txt and b.txt"
writes the single file named "a.txt and b.txt". -/
theorem createBypass_trigger_and_filename_witness :
    jsStartsWith "create a.txt and b.txt" "create " = true ∧
    jsIncludes "create a.txt and b.txt" ".txt" = true ∧
    startAction "create a.txt and b.txt" = .bypass "a.txt and b.txt" :=
  ⟨by decide, by decide,
    (createBypass_trigger_and_filename "create a.txt and b.txt"
      (by decide) (by decide)).trans (by decide)⟩

/-- Auxiliary: the dispatch loop only ever appends to the history it is
given. -/
theorem dispatchCalls_extends (calls : List ToolCall) :
    ∀ env hist, ∃ t, (dispatchCalls env hist calls).2.1 = hist ++ t := by
  induction calls with
  | nil => exact fun env hist => ⟨[], by simp [dispatchCalls]⟩
  | cons tc rest ih =>
    intro env hist
    cases hp : jsonParse tc.args with
    | error m => exact ⟨[], by simp [dispatchCalls, hp]⟩
    | ok args =>
      obtain ⟨t, ht⟩ := ih (executeTool env tc.name args).2
        (hist ++ [Turn.mk "function" (serializeResult (executeTool env tc.name args).1)])
      refine ⟨Turn.mk "function" (serializeResult (executeTool env tc.name args).1) :: t, ?_⟩
      simp only [dispatchCalls, hp]
      rw [ht]
      simp

/-- Claim C5 (amended): after the stream completes with a retained
non-empty batch of N calls whose argument strings all parse as JSON, the
loop dispatches exactly N calls sequentially in the order the model
returned them, appending each call's serialized result to the history as
a role-"function" (tool) turn before dispatching the next; the loop
refines the sequential trace dispatchTrace.  (The counterexample shows
the parse hypothesis is necessary: an unparseable argument string aborts
the loop before that call is dispatched.) -/
theorem dispatchCalls_spec (env : Env) (hist : List Turn) (calls : List ToolCall)
    (h : calls.all (fun tc => exceptOk (jsonParse tc.args)) = true) :
    (dispatchCalls env hist calls).2.1 = hist ++ dispatchTrace env calls ∧
    (dispatchCalls env hist calls).2.2 = none ∧
    (dispatchTrace env calls).length = calls.length ∧
    (dispatchTrace env calls).all (fun t => t.role == "function") = true := by
  induction calls generalizing env hist with
  | nil => exact ⟨by simp [dispatchCalls, dispatchTrace], by simp [dispatchCalls], rfl, rfl⟩
  | cons tc rest ih =>
    rw [List.all_cons, Bool.and_eq_true] at h
    obtain ⟨h1, h2⟩ := h
    cases hp : jsonParse tc.args with
    | error m =>
      rw [hp] at h1
      exact absurd h1 (by simp [exceptOk])
    | ok args =>
      obtain ⟨ihA, ihB, ihC, ihD⟩ := ih (executeTool env tc.name args).2
        (hist ++ [Turn.mk "function" (serializeResult (executeTool env tc.name args).1)]) h2
      refine ⟨?_, ?_, ?_, ?_⟩
      · simp only [dispatchCalls, dispatchTrace, hp]
        rw [ihA]
        simp
      · simp only [dispatchCalls, hp]
        exact ihB
      · simp only [dispatchTrace, hp, List.length_cons]
        rw [ihC]
      · simp only [dispatchTrace, hp, List.all_cons]
        rw [ihD]
        rfl

/-- Counterexample to C5 as stated: a retained batch of one call whose
argument string is not valid JSON leads to zero dispatches and zero
appended tool turns — JSON.parse throws inside the loop before
executeTool is reached, and the throw escapes the loop into the chat
loop's catch. -/
theorem dispatchCalls_unparsed_args_counterexample :
    (retainToolCalls [⟨"", some [⟨"readFile", "not json"⟩]⟩]).length = 1 ∧
    ((dispatchCalls envPlain [] [⟨"readFile", "not json"⟩]).2.1).length = 0 ∧
    (dispatchCalls envPlain [] [⟨"readFile", "not json"⟩]).2.2 =
      some "Unexpected token in JSON at position 0" :=
  ⟨by decide, rfl, rfl⟩

/-- Witness for C5 at the spec's scenario: a stream of two chunks whose
second carries a two-call batch; both calls parse, so exactly two
role-"function" turns are appended in order. -/
theorem dispatchCalls_spec_witness :
    demoChunks.length = 2 ∧
    (retainToolCalls demoChunks).length = 2 ∧
    (retainToolCalls demoChunks).all (fun tc => exceptOk (jsonParse tc.args)) = true ∧
    ((dispatchCalls envPlain [] (retainToolCalls demoChunks)).2.1 =
      [] ++ dispatchTrace envPlain (retainToolCalls demoChunks) ∧
     (dispatchCalls envPlain [] (retainToolCalls demoChunks)).2.2 = none ∧
     (dispatchTrace envPlain (retainToolCalls demoChunks)).length =
       (retainToolCalls demoChunks).length ∧
     (dispatchTrace envPlain (retainToolCalls demoChunks)).all
       (fun t => t.role == "function") = true) :=
  ⟨rfl, by decide, by decide,
    dispatchCalls_spec envPlain [] (retainToolCalls demoChunks) (by decide)⟩

/-- Claim C9: when the interactive input lowercases to "exit", the
session reaches its terminal state: processUserInput signals termination
with the state unchanged and zero requests issued, and the remaining
session issues no remote-model request whatever inputs follow (the
farewell and the release of the input stream are the console effects of
this branch); any other input appends a user turn and issues exactly one
request. -/
theorem exit_terminates_session (st : ChatState) (streams : List (List StreamChunk))
    (stream : List StreamChunk) (rest : List String) (input : String) :
    (jsToLowerCase input = "exit" →
      processUserInput st stream input = (false, st, 0) ∧
      runSession st streams (input :: rest) = (st.history, 0)) ∧
    (jsToLowerCase input ≠ "exit" →
      (processUserInput st stream input).2.2 = 1 ∧
      extendsHist (st.history ++ [{ role := "user", text := input }])
        (processUserInput st stream input).2.1.history) := by
  constructor
  · intro h
    have hcond : (jsToLowerCase input == "exit") = true := beq_iff_eq.mpr h
    have hPall : ∀ s, processUserInput st s input = (false, st, 0) := fun s => by
      simp only [processUserInput]
      rw [if_pos hcond]
    refine ⟨hPall stream, ?_⟩
    simp only [runSession]
    rw [hPall (streams.headD [])]
    rfl
  · intro h
    have hb : (jsToLowerCase input == "exit") = false := beq_eq_false_iff_ne.mpr h
    have hcond : ¬ ((jsToLowerCase input == "exit") = true) := by
      rw [hb]
      exact Bool.false_ne_true
    by_cases hl : (retainToolCalls stream).length > 0
    · have hP : processUserInput st stream input =
          (true,
            { history := (dispatchCalls st.env
                (st.history ++ [{ role := "user", text := input }] ++
                  [{ role := "model", text := streamText stream }])
                (retainToolCalls stream)).2.1
              env := (dispatchCalls st.env
                (st.history ++ [{ role := "user", text := input }] ++
                  [{ role := "model", text := streamText stream }])
                (retainToolCalls stream)).1 }, 1) := by
        simp only [processUserInput]
        rw [if_neg hcond, if_pos hl]
      obtain ⟨t, ht⟩ := dispatchCalls_extends (retainToolCalls stream) st.env
        (st.history ++ [{ role := "user", text := input }] ++
          [{ role := "model", text := streamText stream }])
      refine ⟨by rw [hP], ?_⟩
      rw [hP]
      refine ⟨{ role := "model", text := streamText stream } :: t, ?_⟩
      rw [ht]
      simp
    · have hP : processUserInput st stream input =
          (true,
            { history := st.history ++ [{ role := "user", text := input }] ++
                [{ role := "model", text := streamText stream }]
              env := st.env }, 1) := by
        simp only [processUserInput]
        rw [if_neg hcond, if_neg hl]
      refine ⟨by rw [hP], ?_⟩
      rw [hP]
      exact ⟨[{ role := "model", text := streamText stream }], by simp⟩

/-- Witness for C9 at the inputs "EXIT" (case-insensitive match) and
"hello". -/
theorem exit_terminates_session_witness :
    jsToLowerCase "EXIT" = "exit" ∧
    (processUserInput stDemo [] "EXIT" = (false, stDemo, 0) ∧
     runSession stDemo [] ["EXIT", "later"] = (stDemo.history, 0)) ∧
    jsToLowerCase "hello" ≠ "exit" ∧
    ((processUserInput stDemo [] "hello").2.2 = 1 ∧
     extendsHist (stDemo.history ++ [{ role := "user", text := "hello" }])
       (processUserInput stDemo [] "hello").2.1.history) :=
  ⟨by decide,
    (exit_terminates_session stDemo [] [] ["later"] "EXIT").1 (by decide),
    by decide,
    (exit_terminates_session stDemo [] [] [] "hello").2 (by decide)⟩

end MyCodingAgent
